import Mathlib

/-!
Shallow embedding of `src/ipfs.rs` from the git-lfs-ipfs repository.

Pure fragments of the Rust source are translated into executable Lean
definitions; the effectful request pipelines are translated stage by
stage: endpoint resolution becomes an explicit `Except Error Url`
argument, HTTP responses become explicit `(status, body)` data, and the
streamed multipart body becomes the list of its chunks.
-/

/-- The error enumeration of `crate::error::Error`, as used by `ipfs.rs`. -/
inductive Error where
  | HashError
  | IpfsPathParseError
  | LocalApiUnavailableError
  | IpfsApiSendRequestError
  | IpfsApiResponseError (status : Nat)
  | IpfsApiJsonPayloadError
  | IpfsApiPayloadError
deriving DecidableEq

/-- The codec argument used by `sha256_to_cid` (`cid::Codec::Raw`). -/
inductive Codec where
  | Raw
deriving DecidableEq

/-- The version argument used by `sha256_to_cid` (`cid::Version::V0`). -/
inductive Version where
  | V0
deriving DecidableEq

/-- A content identifier as built by `Cid::new(codec, version, digest)`. -/
structure Cid where
  codec : Codec
  version : Version
  digest : List Nat
deriving DecidableEq

/-- Value of one hexadecimal digit, as accepted by Rust `hex::decode`. -/
def hexDigitVal (c : Char) : Option Nat :=
  if '0' ≤ c ∧ c ≤ '9' then some (c.toNat - '0'.toNat)
  else if 'a' ≤ c ∧ c ≤ 'f' then some (c.toNat - 'a'.toNat + 10)
  else if 'A' ≤ c ∧ c ≤ 'F' then some (c.toNat - 'A'.toNat + 10)
  else none

/-- `hex::decode` on a character list: pairs of hex digits become bytes;
an odd-length input or a non-hex character fails. -/
def hexDecodeChars : List Char → Option (List Nat)
  | [] => some []
  | [_] => none
  | hi :: lo :: rest =>
    match hexDigitVal hi, hexDigitVal lo, hexDecodeChars rest with
    | some h, some l, some bs => some ((h * 16 + l) :: bs)
    | _, _, _ => none

/-- Rust `hex::decode` on a string. -/
def hex_decode (s : String) : Option (List Nat) :=
  hexDecodeChars s.data

/-- `sha256_to_cid` from `ipfs.rs`: hex-decode the input, require the
decoded length to be exactly 256 bytes, and build a raw V0 identifier;
any failure is `HashError`. -/
def sha256_to_cid (sha256_str : String) : Except Error Cid :=
  match hex_decode sha256_str with
  | none => .error .HashError
  | some digest =>
    if digest.length ≠ 256 then .error .HashError
    else .ok ⟨Codec.Raw, Version.V0, digest⟩

/-- `multipart_begin` from `ipfs.rs`: the preamble chunk of the
multipart body (request line, host header, optional Content-Length
header, Content-Type header, opening boundary delimiter, blank line). -/
def multipart_begin (length : Option Nat) (boundary : String) : String :=
  "POST /api/v0/add HTTP/1.1\r\nHost: localhost:5001\r\n"
    ++ (match length with
        | some n => "Content-Length: " ++ Nat.repr n ++ "\r\n"
        | none => "")
    ++ ("Content-Type: multipart/form-data; boundary=" ++ boundary ++ "\r\n")
    ++ ("--" ++ boundary ++ "\r\n\r\n")

/-- `multipart_end` from `ipfs.rs`: the terminating chunk of the
multipart body. -/
def multipart_end (boundary : String) : String :=
  "\r\n--" ++ boundary ++ "--\r\n"

/-- The chunk sequence of the streamed request body built in `add`:
the preamble chunk, then every payload chunk unchanged and in order,
then the terminator chunk. -/
def add_body_chunks (length : Option Nat) (boundary : String)
    (payload : List String) : List String :=
  multipart_begin length boundary :: (payload ++ [multipart_end boundary])

/-- Concatenation of the streamed chunks into the body byte sequence. -/
def concatChunks (chunks : List String) : String :=
  chunks.foldr (fun a b => a ++ b) ""

/-- `res.status().is_success()` of the actix HTTP status: 2xx. -/
def is_success (status : Nat) : Bool :=
  200 ≤ status && status < 300

/-- HTTP request methods used by the operations. -/
inductive Method where
  | GET
  | POST
deriving DecidableEq

/-- A URL as manipulated by the operations: scheme, authority
(host and optional port), path, and the ordered query pair list kept
by `url::Url::query_pairs_mut`. -/
structure Url where
  scheme : String
  host : String
  path : String
  query : List (String × String)
deriving DecidableEq

/-- Merge of a base path and a relative reference, as `Url::join` does
for the relative paths used here: everything after the base path's last
slash is replaced by the reference. -/
def mergePath (base rel : List Char) : List Char :=
  (base.reverse.dropWhile (fun c => c ≠ '/')).reverse ++ rel

/-- `Url::join` with a relative path reference: the path is merged and
the query of the base is dropped. -/
def Url.join (u : Url) (rel : String) : Url :=
  { u with path := String.mk (mergePath u.path.data rel.data), query := [] }

/-- `url.query_pairs_mut().append_pair(k, v)`: appends one query pair. -/
def Url.append_pair (u : Url) (k v : String) : Url :=
  { u with query := u.query ++ [(k, v)] }

/-- Rendering of a query pair list, `?k=v&...` when non-empty. -/
def renderQuery : List (String × String) → String
  | [] => ""
  | q => "?" ++ String.intercalate "&" (q.map (fun p => p.1 ++ "=" ++ p.2))

/-- Rendering of a URL as a string. -/
def Url.render (u : Url) : String :=
  u.scheme ++ "://" ++ u.host ++ u.path ++ renderQuery u.query

/-- The lazily initialised `IPFS_PUBLIC_API_URL`,
`Url::parse("https://ipfs.io/")`. -/
def IPFS_PUBLIC_API_URL : Url :=
  ⟨"https", "ipfs.io", "/", []⟩

/-- A request as dispatched by `client::get`/`client::post`. -/
structure Request where
  method : Method
  url : Url
deriving DecidableEq

/-- URL-building stage of `get`: on successful endpoint resolution the
local API URL `api/v0/get?arg=/ipfs/<cid>`; on any resolution error the
public gateway joined with the identifier string. -/
def get_request (r : Except Error Url) (cid : String) : Except Error Request :=
  match r with
  | .ok url => .ok ⟨.GET, (url.join "api/v0/get").append_pair "arg" ("/ipfs/" ++ cid)⟩
  | .error _ => .ok ⟨.GET, IPFS_PUBLIC_API_URL.join cid⟩

/-- URL-building stage of `resolve`: local `api/v0/resolve?arg=<path>`,
with the public gateway joined with the path string as fallback. -/
def resolve_request (r : Except Error Url) (path : String) : Except Error Request :=
  match r with
  | .ok url => .ok ⟨.GET, (url.join "api/v0/resolve").append_pair "arg" path⟩
  | .error _ => .ok ⟨.GET, IPFS_PUBLIC_API_URL.join path⟩

/-- URL-building stage of `add`: a POST to `api/v0/add`; a resolution
error is propagated by the `map` over the resolution future. -/
def add_request (r : Except Error Url) : Except Error Request :=
  match r with
  | .ok url => .ok ⟨.POST, url.join "api/v0/add"⟩
  | .error e => .error e

/-- URL-building stage of `ls`: `api/v0/ls?arg=<name>`; a resolution
error is propagated by the `join` of the two futures. -/
def ls_request (r : Except Error Url) (name : String) : Except Error Request :=
  match r with
  | .ok url => .ok ⟨.GET, (url.join "api/v0/ls").append_pair "arg" name⟩
  | .error e => .error e

/-- URL-building stage of `object_patch_link`:
`api/v0/object/patch/add-link` with the four query pairs appended in
source order; a resolution error is propagated by `join5`. -/
def object_patch_link_request (r : Except Error Url)
    (modify_multihash name add_multihash : String) (create : Bool) :
    Except Error Request :=
  match r with
  | .ok url =>
    .ok ⟨.GET,
      ((((url.join "api/v0/object/patch/add-link").append_pair
            "arg" modify_multihash).append_pair
            "arg" name).append_pair
            "arg" add_multihash).append_pair
            "create" (if create then "true" else "false")⟩
  | .error e => .error e

/-- URL-building stage of `name_publish`: local
`api/v0/name/publish?arg=/ipfs/<cid>&key=<keyName>`; on any resolution
error, the public gateway joined with only the identifier string. -/
def name_publish_request (r : Except Error Url) (cid keyName : String) :
    Except Error Request :=
  match r with
  | .ok url =>
    .ok ⟨.GET,
      ((url.join "api/v0/name/publish").append_pair
          "arg" ("/ipfs/" ++ cid)).append_pair "key" keyName⟩
  | .error _ => .ok ⟨.GET, IPFS_PUBLIC_API_URL.join cid⟩

/-- URL-building stage of `key_list`: `api/v0/key/list`; a resolution
error is propagated by the `map`. -/
def key_list_request (r : Except Error Url) : Except Error Request :=
  match r with
  | .ok url => .ok ⟨.GET, url.join "api/v0/key/list"⟩
  | .error e => .error e

/-- One component of the parsed multiaddr, as matched by
`ipfs_api_url`.  IP components carry their display string; `Other`
stands for every component type the loop does not understand. -/
inductive AddrComponent where
  | IP4 (a b c d : Nat)
  | IP6 (shown : String)
  | TCP (port : Nat)
  | Other (shown : String)
deriving DecidableEq

/-- Display form of an IPv4 address, as produced by `format!` on
`std::net::IpAddr`. -/
def ip4_show (a b c d : Nat) : String :=
  Nat.repr a ++ "." ++ Nat.repr b ++ "." ++ Nat.repr c ++ "." ++ Nat.repr d

/-- The component loop of `ipfs_api_url`: folds over the components,
remembering the last IP and last TCP component, and abandons the whole
parse (`return None`) on the first unrecognised component. -/
def resolve_addr : List AddrComponent → Option String → Option Nat →
    Option (String × Nat)
  | [], addr, port =>
    match addr, port with
    | some a, some p => some (a, p)
    | _, _ => none
  | .IP4 a b c d :: rest, _, port => resolve_addr rest (some (ip4_show a b c d)) port
  | .IP6 shown :: rest, _, port => resolve_addr rest (some shown) port
  | .TCP p :: rest, addr, _ => resolve_addr rest addr (some p)
  | .Other _ :: _, _, _ => none

/-- Decimal digit test, as used by the url crate's port parser. -/
def isDigitChar (c : Char) : Bool :=
  '0' ≤ c && c ≤ '9'

/-- Value of a decimal digit string. -/
def digitsToNat (l : List Char) : Nat :=
  l.foldl (fun acc c => acc * 10 + (c.toNat - 48)) 0

/-- Behaviour of `url::Url::parse` on the synthesized string
`http://<authority>/` of `ipfs_api_url`: the authority is cut at its
first colon into host and port; parsing fails when the host is empty
(as for an unbracketed IPv6 address beginning with a colon, e.g.
`::1`), when the port part is not all decimal digits (as for the
remaining colon-separated groups of any other unbracketed IPv6
address), or when the port value exceeds 65535; on success the URL
keeps the whole authority, path `/` and no query. -/
def url_parse_http (authority : String) : Option Url :=
  let host := authority.data.takeWhile (fun c => c ≠ ':')
  let portPart := (authority.data.dropWhile (fun c => c ≠ ':')).drop 1
  if host = [] then none
  else if !(portPart.all isDigitChar) then none
  else if 65535 < digitsToNat portPart then none
  else some ⟨"http", authority, "/", []⟩

/-- `ipfs_api_url`: `none` stands for a missing, unreadable or
unparsable `~/.ipfs/api` file; otherwise the parsed component list is
folded and, when an IP and a TCP port were both found, the string
`http://<ip>:<port>/` is synthesized and must itself parse as a URL
(`Url::parse(..).map_err(|_| ()).ok()`); any failure along the way is
`LocalApiUnavailableError`. -/
def ipfs_api_url (components : Option (List AddrComponent)) : Except Error Url :=
  match components with
  | none => .error .LocalApiUnavailableError
  | some comps =>
    match resolve_addr comps none none with
    | some (a, p) =>
      match url_parse_http (a ++ ":" ++ Nat.repr p) with
      | some url => .ok url
      | none => .error .LocalApiUnavailableError
    | none => .error .LocalApiUnavailableError

/-- True when the component list contains a component the loop does not
understand. -/
def hasOther (comps : List AddrComponent) : Bool :=
  comps.any (fun c => match c with | .Other _ => true | _ => false)

/-- True when the component list contains an IP component. -/
def hasIP (comps : List AddrComponent) : Bool :=
  comps.any (fun c => match c with | .IP4 _ _ _ _ => true | .IP6 _ => true | _ => false)

/-- True when the component list contains a TCP component. -/
def hasTCP (comps : List AddrComponent) : Bool :=
  comps.any (fun c => match c with | .TCP _ => true | _ => false)

/-- Response stage of `get`: a success status streams the body bytes
unmodified, any other status is `IpfsApiResponseError` with that
status; the error branch carries no body. -/
def get_response (status : Nat) (body : List Nat) : Except Error (List Nat) :=
  if is_success status then .ok body
  else .error (.IpfsApiResponseError status)

/-- The Unicode replacement character emitted by lossy decoding. -/
def replacementChar : Char := Char.ofNat 0xFFFD

/-- UTF-8 continuation byte test (`0x80..=0xBF`). -/
def isCont (b : Nat) : Bool :=
  0x80 ≤ b && b ≤ 0xBF

/-- Allowed second byte of a multi-byte UTF-8 sequence given its
starter, following the table used by Rust's `str` validation
(E0, ED, F0 and F4 restrict the second byte further). -/
def contSnd (b1 b2 : Nat) : Bool :=
  if b1 = 0xE0 then 0xA0 ≤ b2 && b2 ≤ 0xBF
  else if b1 = 0xED then 0x80 ≤ b2 && b2 ≤ 0x9F
  else if b1 = 0xF0 then 0x90 ≤ b2 && b2 ≤ 0xBF
  else if b1 = 0xF4 then 0x80 ≤ b2 && b2 ≤ 0x8F
  else isCont b2

/-- `String::from_utf8_lossy` on a byte list: valid UTF-8 sequences
decode to their scalar value, each invalid sequence is replaced by one
replacement character, and decoding restarts after the rejected bytes
exactly as Rust's validation error lengths dictate. -/
def utf8_lossy_go : List Nat → List Char
  | [] => []
  | b1 :: rest =>
    if b1 < 0x80 then Char.ofNat b1 :: utf8_lossy_go rest
    else if 0xC2 ≤ b1 && b1 ≤ 0xDF then
      match rest with
      | [] => [replacementChar]
      | b2 :: rest2 =>
        if isCont b2 then
          Char.ofNat ((b1 - 0xC0) * 64 + (b2 - 0x80)) :: utf8_lossy_go rest2
        else replacementChar :: utf8_lossy_go (b2 :: rest2)
    else if 0xE0 ≤ b1 && b1 ≤ 0xEF then
      match rest with
      | [] => [replacementChar]
      | b2 :: rest2 =>
        if contSnd b1 b2 then
          match rest2 with
          | [] => [replacementChar]
          | b3 :: rest3 =>
            if isCont b3 then
              Char.ofNat ((b1 - 0xE0) * 4096 + (b2 - 0x80) * 64 + (b3 - 0x80))
                :: utf8_lossy_go rest3
            else replacementChar :: utf8_lossy_go (b3 :: rest3)
        else replacementChar :: utf8_lossy_go (b2 :: rest2)
    else if 0xF0 ≤ b1 && b1 ≤ 0xF4 then
      match rest with
      | [] => [replacementChar]
      | b2 :: rest2 =>
        if contSnd b1 b2 then
          match rest2 with
          | [] => [replacementChar]
          | b3 :: rest3 =>
            if isCont b3 then
              match rest3 with
              | [] => [replacementChar]
              | b4 :: rest4 =>
                if isCont b4 then
                  Char.ofNat ((b1 - 0xF0) * 262144 + (b2 - 0x80) * 4096
                      + (b3 - 0x80) * 64 + (b4 - 0x80))
                    :: utf8_lossy_go rest4
                else replacementChar :: utf8_lossy_go (b4 :: rest4)
            else replacementChar :: utf8_lossy_go (b3 :: rest3)
        else replacementChar :: utf8_lossy_go (b2 :: rest2)
    else replacementChar :: utf8_lossy_go rest

/-- `String::from_utf8_lossy(..).to_string()` on a byte list. -/
def utf8_lossyString (bytes : List Nat) : String :=
  String.mk (utf8_lossy_go bytes)

/-- Response stage of `name_publish`: a success status yields the body
bytes decoded lossily as text — a total function, decoding never fails —
and any other status is `IpfsApiResponseError`. -/
def name_publish_response (status : Nat) (body : List Nat) : Except Error String :=
  if is_success status then .ok (utf8_lossyString body)
  else .error (.IpfsApiResponseError status)

/-- Boolean list-prefix test, used by the substring counter. -/
def beginsWith : List Char → List Char → Bool
  | [], _ => true
  | _ :: _, [] => false
  | a :: p, b :: s => a = b && beginsWith p s

/-- Number of positions of `s` at which the pattern `pat` occurs. -/
def occurs (pat : List Char) : List Char → Nat
  | [] => 0
  | c :: t => (if beginsWith pat (c :: t) then 1 else 0) + occurs pat t

/-- The character sequence of a Content-Length header name. -/
def clPat : List Char :=
  ("Content-Length:").data

/-- True when no occurrence of `pat` can begin at any position of `xs`,
whatever list is appended after `xs`: at every position, the part of
the pattern that fits in the rest of `xs` already fails to match. -/
def noStart (pat : List Char) : List Char → Bool
  | [] => true
  | c :: t => !(beginsWith (pat.take (t.length + 1)) (c :: t)) && noStart pat t

theorem concatChunks_nil : concatChunks [] = "" := rfl

theorem concatChunks_cons (a : String) (l : List String) :
    concatChunks (a :: l) = a ++ concatChunks l := rfl

theorem string_append_empty (s : String) : s ++ "" = s :=
  String.append_empty s

theorem concatChunks_append (u v : List String) :
    concatChunks (u ++ v) = concatChunks u ++ concatChunks v := by
  induction u with
  | nil =>
    show concatChunks v = "" ++ concatChunks v
    rfl
  | cons a u ih =>
    show a ++ concatChunks (u ++ v) = (a ++ concatChunks u) ++ concatChunks v
    rw [ih, String.append_assoc]

set_option maxRecDepth 8192 in
/-- C1: the hash parser accepts exactly the inputs whose decoded byte
length is 256 (not 32, the true sha2-256 digest length): the
64-hex-character all-zero string — a genuine 32-byte sha2-256 digest —
is rejected with `HashError`, while a 512-hex-character string is
accepted. This evaluates the code at the failing input of the claim. -/
theorem sha256_to_cid_length_check :
    sha256_to_cid (String.mk (List.replicate 64 '0')) = .error Error.HashError
    ∧ sha256_to_cid (String.mk (List.replicate 512 '0'))
        = .ok ⟨Codec.Raw, Version.V0, List.replicate 256 0⟩ := by
  exact ⟨rfl, rfl⟩

/-- C2 counterexample: with boundary `"B"` and payload chunks
`["ab", "cd"]` and no declared length, the concatenated body does not
equal `preamble(B) ++ "ab" ++ "cd" ++ "--B--\r\n"` — the terminator
chunk emitted by the code carries a leading CRLF. -/
theorem add_body_concat_counterexample :
    concatChunks (add_body_chunks none "B" ["ab", "cd"])
      ≠ multipart_begin none "B" ++ "ab" ++ "cd" ++ "--B--\r\n" := by
  decide

/-- C2 amended: the encoder's output chunk sequence is exactly the
preamble chunk, then each payload chunk verbatim and in order, then a
final chunk equal to `"\r\n--" ++ B ++ "--\r\n"`; consequently the
concatenated output is `preamble ++ payload ++ "\r\n--B--\r\n"`. -/
theorem add_body_chunks_spec (length : Option Nat) (boundary : String)
    (payload : List String) :
    add_body_chunks length boundary payload
      = multipart_begin length boundary :: (payload ++ [multipart_end boundary])
    ∧ multipart_end boundary = "\r\n--" ++ boundary ++ "--\r\n"
    ∧ concatChunks (add_body_chunks length boundary payload)
      = multipart_begin length boundary ++ concatChunks payload
          ++ ("\r\n--" ++ boundary ++ "--\r\n") := by
  refine ⟨rfl, rfl, ?_⟩
  show multipart_begin length boundary
      ++ concatChunks (payload ++ [multipart_end boundary]) = _
  rw [concatChunks_append]
  show multipart_begin length boundary
      ++ (concatChunks payload ++ (multipart_end boundary ++ "")) = _
  rw [string_append_empty, multipart_end, ← String.append_assoc]

/-- C3: with endpoint resolution failed as `LocalApiUnavailableError`,
`get`, `resolve` and `name_publish` substitute the public gateway base
URL and still produce a request, while `add`, `ls`,
`object_patch_link` and `key_list` propagate the error and build no
request. -/
theorem fallback_and_propagation (cid path name modify nm addh keyName : String)
    (create : Bool) :
    get_request (.error .LocalApiUnavailableError) cid
      = .ok ⟨.GET, IPFS_PUBLIC_API_URL.join cid⟩
    ∧ resolve_request (.error .LocalApiUnavailableError) path
      = .ok ⟨.GET, IPFS_PUBLIC_API_URL.join path⟩
    ∧ name_publish_request (.error .LocalApiUnavailableError) cid keyName
      = .ok ⟨.GET, IPFS_PUBLIC_API_URL.join cid⟩
    ∧ add_request (.error .LocalApiUnavailableError)
      = .error .LocalApiUnavailableError
    ∧ ls_request (.error .LocalApiUnavailableError) name
      = .error .LocalApiUnavailableError
    ∧ object_patch_link_request (.error .LocalApiUnavailableError)
        modify nm addh create
      = .error .LocalApiUnavailableError
    ∧ key_list_request (.error .LocalApiUnavailableError)
      = .error .LocalApiUnavailableError :=
  ⟨rfl, rfl, rfl, rfl, rfl, rfl, rfl⟩

theorem resolve_addr_no_tcp (comps : List AddrComponent)
    (h : hasTCP comps = false) : ∀ a, resolve_addr comps a none = none := by
  induction comps with
  | nil => intro a; cases a <;> rfl
  | cons c rest ih =>
    intro a
    cases c with
    | IP4 x y z w =>
      simp only [hasTCP, List.any_cons] at h
      exact ih (by simpa [hasTCP] using h) _
    | IP6 shown =>
      simp only [hasTCP, List.any_cons] at h
      exact ih (by simpa [hasTCP] using h) _
    | TCP p => simp [hasTCP, List.any_cons] at h
    | Other shown => rfl

/-- C4: a descriptor whose multiaddr holds exactly one IPv4 component
`127.0.0.1` and one TCP component `5001` resolves to exactly
`http://127.0.0.1:5001/`; a descriptor whose TCP component is missing
fails with `LocalApiUnavailableError`. -/
theorem ipfs_api_url_basic :
    ipfs_api_url (some [AddrComponent.IP4 127 0 0 1, AddrComponent.TCP 5001])
      = .ok ⟨"http", "127.0.0.1:5001", "/", []⟩
    ∧ Url.render ⟨"http", "127.0.0.1:5001", "/", []⟩ = "http://127.0.0.1:5001/"
    ∧ ∀ comps : List AddrComponent, hasTCP comps = false →
        ipfs_api_url (some comps) = .error .LocalApiUnavailableError := by
  refine ⟨rfl, rfl, ?_⟩
  intro comps h
  simp only [ipfs_api_url]
  rw [resolve_addr_no_tcp comps h none]

/-- Witness for C4 at a concrete TCP-less descriptor. -/
theorem ipfs_api_url_basic_witness :
    hasTCP [AddrComponent.IP4 127 0 0 1] = false
    ∧ ipfs_api_url (some [AddrComponent.IP4 127 0 0 1])
      = .error .LocalApiUnavailableError :=
  ⟨by decide, ipfs_api_url_basic.2.2 [AddrComponent.IP4 127 0 0 1] (by decide)⟩

theorem resolve_addr_isSome (comps : List AddrComponent) :
    ∀ a p, (resolve_addr comps a p).isSome
      = (!hasOther comps && (hasIP comps || a.isSome) && (hasTCP comps || p.isSome)) := by
  induction comps with
  | nil =>
    intro a p
    cases a <;> cases p <;> simp [resolve_addr, hasOther, hasIP, hasTCP]
  | cons c rest ih =>
    intro a p
    cases c <;>
      simp [resolve_addr, hasOther, hasIP, hasTCP, List.any_cons, ih]

/-- C5 counterexample: a descriptor with two IPv4 components and one
TCP component still resolves successfully (the second IP wins), so
success does not require exactly one IP component. -/
theorem ipfs_api_url_duplicate_ip_counterexample :
    ipfs_api_url (some [AddrComponent.IP4 10 0 0 1,
        AddrComponent.IP4 127 0 0 1, AddrComponent.TCP 5001])
      = .ok ⟨"http", "127.0.0.1:5001", "/", []⟩ := rfl

/-- C5 amended: resolution fails for every component list containing an
unrecognised component; the component loop yields an address-port pair
exactly when no unrecognised component is present and at least one IP
component and at least one TCP component are present (later components
of the same kind overwrite earlier ones); resolution then succeeds
exactly when the synthesized `http://<ip>:<port>/` string parses as a
URL — which fails for every unbracketed IPv6 winner — and returns the
parsed URL. -/
theorem ipfs_api_url_acceptance (comps : List AddrComponent) :
    (hasOther comps = true →
      ipfs_api_url (some comps) = .error .LocalApiUnavailableError)
    ∧ ((∃ a p, resolve_addr comps none none = some (a, p))
        ↔ hasOther comps = false ∧ hasIP comps = true ∧ hasTCP comps = true)
    ∧ (∀ a p, resolve_addr comps none none = some (a, p) →
        (url_parse_http (a ++ ":" ++ Nat.repr p) = none →
          ipfs_api_url (some comps) = .error .LocalApiUnavailableError)
        ∧ ∀ u, url_parse_http (a ++ ":" ++ Nat.repr p) = some u →
            ipfs_api_url (some comps) = .ok u) := by
  have key := resolve_addr_isSome comps none none
  simp only [Option.isSome_none, Bool.or_false] at key
  refine ⟨?_, ⟨?_, ?_⟩, ?_⟩
  · intro h
    rw [h] at key
    simp only [Bool.not_true, Bool.false_and] at key
    simp only [ipfs_api_url]
    cases hr : resolve_addr comps none none with
    | none => rfl
    | some v => rw [hr] at key; simp at key
  · rintro ⟨a, p, hr⟩
    rw [hr] at key
    simp only [Option.isSome_some] at key
    have key' := key.symm
    simp only [Bool.and_eq_true, Bool.not_eq_true'] at key'
    exact ⟨key'.1.1, key'.1.2, key'.2⟩
  · rintro ⟨h1, h2, h3⟩
    rw [h1, h2, h3] at key
    simp only [Bool.not_false, Bool.true_and, Bool.and_self] at key
    cases hr : resolve_addr comps none none with
    | none => rw [hr] at key; simp at key
    | some v => exact ⟨v.1, v.2, rfl⟩
  · intro a p hr
    constructor
    · intro hp
      simp only [ipfs_api_url, hr, hp]
    · intro u hu
      simp only [ipfs_api_url, hr, hu]

/-- Witness for C5: the amended acceptance condition at a concrete
unrecognised component, at a concrete IPv4+TCP descriptor, and at a
concrete IPv6+TCP descriptor whose synthesized URL fails to parse. -/
theorem ipfs_api_url_acceptance_witness :
    ipfs_api_url (some [AddrComponent.Other "udp"])
      = .error .LocalApiUnavailableError
    ∧ (∃ a p, resolve_addr [AddrComponent.IP4 127 0 0 1, AddrComponent.TCP 5001]
        none none = some (a, p))
    ∧ ipfs_api_url (some [AddrComponent.IP6 "::1", AddrComponent.TCP 5001])
      = .error .LocalApiUnavailableError :=
  ⟨(ipfs_api_url_acceptance [AddrComponent.Other "udp"]).1 (by decide),
   (ipfs_api_url_acceptance
      [AddrComponent.IP4 127 0 0 1, AddrComponent.TCP 5001]).2.1.mpr (by decide),
   ((ipfs_api_url_acceptance
      [AddrComponent.IP6 "::1", AddrComponent.TCP 5001]).2.2 "::1" 5001 rfl).1 rfl⟩

/-- C6: a non-success status makes `get` fail with
`IpfsApiResponseError` carrying that exact status, independently of the
body (no body is used or streamed); a success status streams the body
bytes unmodified. -/
theorem get_response_spec (status : Nat) (body body' : List Nat) :
    (is_success status = false →
      get_response status body = .error (.IpfsApiResponseError status)
      ∧ get_response status body = get_response status body')
    ∧ (is_success status = true → get_response status body = .ok body) := by
  constructor
  · intro h
    constructor <;> simp [get_response, h]
  · intro h
    simp [get_response, h]

/-- Witness for C6 at status 404 (failure) and status 200 (success). -/
theorem get_response_spec_witness :
    (is_success 404 = false
      ∧ get_response 404 [7] = .error (.IpfsApiResponseError 404)
      ∧ get_response 404 [7] = get_response 404 [8])
    ∧ (is_success 200 = true ∧ get_response 200 [7] = .ok [7]) :=
  ⟨⟨by decide, (get_response_spec 404 [7] [8]).1 (by decide)⟩,
   ⟨by decide, (get_response_spec 200 [7] [8]).2 (by decide)⟩⟩

/-- C8: on a success status `name_publish` returns the body decoded by
lossy UTF-8 decoding, a total function — so a decode failure is not an
outcome — and invalid byte sequences decode to the replacement
character, as shown on the invalid byte 255. -/
theorem name_publish_response_spec (status : Nat) (body : List Nat) :
    (is_success status = true →
      name_publish_response status body = .ok (utf8_lossyString body))
    ∧ utf8_lossyString [72, 255, 105] = String.mk ['H', replacementChar, 'i']
    ∧ utf8_lossyString [72, 105] = "Hi" := by
  refine ⟨fun h => ?_, rfl, rfl⟩
  simp [name_publish_response, h]

/-- Witness for C8 at status 200 with a non-UTF-8 body. -/
theorem name_publish_response_spec_witness :
    is_success 200 = true
    ∧ name_publish_response 200 [255] = .ok (utf8_lossyString [255]) :=
  ⟨by decide, (name_publish_response_spec 200 [255]).1 (by decide)⟩

/-- C9: `object_patch_link` builds a GET request to
`api/v0/object/patch/add-link` whose query holds exactly the four
pairs `arg=modify`, `arg=name`, `arg=add`, `create=<flag>` in that
order, for every resolved base URL. -/
theorem object_patch_link_request_spec (base : Url)
    (modify nm addh : String) (create : Bool) :
    object_patch_link_request (.ok base) modify nm addh create
      = .ok ⟨.GET,
          ⟨base.scheme, base.host,
            (base.join "api/v0/object/patch/add-link").path,
            [("arg", modify), ("arg", nm), ("arg", addh),
              ("create", if create then "true" else "false")]⟩⟩
    ∧ (base.path = "/" →
        (base.join "api/v0/object/patch/add-link").path
          = "/api/v0/object/patch/add-link") := by
  refine ⟨rfl, fun h => ?_⟩
  show String.mk (mergePath base.path.data
    ("api/v0/object/patch/add-link").data) = _
  rw [h]
  decide

/-- Witness for C9 at a resolved local base URL. -/
theorem object_patch_link_request_spec_witness :
    object_patch_link_request (.ok (⟨"http", "127.0.0.1:5001", "/", []⟩ : Url))
        "m" "n" "a" true
      = .ok ⟨.GET,
          ⟨"http", "127.0.0.1:5001",
            (Url.join ⟨"http", "127.0.0.1:5001", "/", []⟩
              "api/v0/object/patch/add-link").path,
            [("arg", "m"), ("arg", "n"), ("arg", "a"), ("create", "true")]⟩⟩
    ∧ (Url.join (⟨"http", "127.0.0.1:5001", "/", []⟩ : Url)
        "api/v0/object/patch/add-link").path
      = "/api/v0/object/patch/add-link" :=
  ⟨(object_patch_link_request_spec ⟨"http", "127.0.0.1:5001", "/", []⟩
      "m" "n" "a" true).1,
   (object_patch_link_request_spec ⟨"http", "127.0.0.1:5001", "/", []⟩
      "m" "n" "a" true).2 rfl⟩

/-- C10: when endpoint resolution fails, the `name_publish` fallback
request URL is the public gateway base joined with only the identifier
string: path `/<hash>`, empty query (hence no `key` parameter and no
`api/v0/name/publish` segment), rendering as `https://ipfs.io/<hash>`. -/
theorem name_publish_fallback_spec (cid keyName : String) :
    name_publish_request (.error .LocalApiUnavailableError) cid keyName
      = .ok ⟨.GET, IPFS_PUBLIC_API_URL.join cid⟩
    ∧ (IPFS_PUBLIC_API_URL.join cid).path = "/" ++ cid
    ∧ (IPFS_PUBLIC_API_URL.join cid).query = []
    ∧ Url.render (IPFS_PUBLIC_API_URL.join cid) = "https://ipfs.io/" ++ cid := by
  refine ⟨rfl, rfl, rfl, ?_⟩
  have h1 : Url.render (IPFS_PUBLIC_API_URL.join cid)
      = "https" ++ "://" ++ "ipfs.io" ++ String.mk ('/' :: cid.data) ++ "" := rfl
  rw [h1, string_append_empty]
  rfl

theorem data_empty : ("" : String).data = [] := rfl

theorem beginsWith_append_of (u : List Char) :
    ∀ p v : List Char, beginsWith p u = true → beginsWith p (u ++ v) = true := by
  induction u with
  | nil =>
    intro p v h
    cases p with
    | nil => rfl
    | cons x p' => simp [beginsWith] at h
  | cons a u' ih =>
    intro p v h
    cases p with
    | nil => rfl
    | cons x p' =>
      simp only [beginsWith, Bool.and_eq_true, decide_eq_true_eq] at h
      simp only [List.cons_append, beginsWith, Bool.and_eq_true, decide_eq_true_eq]
      exact ⟨h.1, ih p' v h.2⟩

theorem beginsWith_take (u : List Char) :
    ∀ p v : List Char, beginsWith p (u ++ v) = true →
      beginsWith (p.take u.length) u = true := by
  induction u with
  | nil => intro p v _; rfl
  | cons a u' ih =>
    intro p v h
    cases p with
    | nil => rfl
    | cons x p' =>
      simp only [List.cons_append, beginsWith, Bool.and_eq_true,
        decide_eq_true_eq] at h
      simp only [List.length_cons, List.take_succ_cons, beginsWith,
        Bool.and_eq_true, decide_eq_true_eq]
      exact ⟨h.1, ih p' v h.2⟩

theorem beginsWith_drop (u : List Char) :
    ∀ p v : List Char, beginsWith p (u ++ v) = true → u.length ≤ p.length →
      beginsWith (p.drop u.length) v = true := by
  induction u with
  | nil => intro p v h _; exact h
  | cons a u' ih =>
    intro p v h hl
    cases p with
    | nil => simp at hl
    | cons x p' =>
      simp only [List.cons_append, beginsWith, Bool.and_eq_true,
        decide_eq_true_eq] at h
      simp only [List.length_cons, List.drop_succ_cons]
      exact ih p' v h.2 (by simpa using hl)

theorem beginsWith_mem (p : List Char) :
    ∀ u : List Char, beginsWith p u = true → ∀ x ∈ p, x ∈ u := by
  induction p with
  | nil => intro u _ x hx; simp at hx
  | cons a p' ih =>
    intro u h x hx
    cases u with
    | nil => simp [beginsWith] at h
    | cons b u' =>
      simp only [beginsWith, Bool.and_eq_true, decide_eq_true_eq] at h
      rcases List.mem_cons.mp hx with h1 | h2
      · exact List.mem_cons.mpr (Or.inl (h1.trans h.1))
      · exact List.mem_cons.mpr (Or.inr (ih u' h.2 x h2))

theorem occurs_append_noStart (p : List Char) :
    ∀ xs ys : List Char, noStart p xs = true →
      occurs p (xs ++ ys) = occurs p ys := by
  intro xs
  induction xs with
  | nil => intro ys _; rfl
  | cons c t ih =>
    intro ys h
    simp only [noStart, Bool.and_eq_true, Bool.not_eq_true'] at h
    show (if beginsWith p (c :: (t ++ ys)) then 1 else 0) + occurs p (t ++ ys)
      = occurs p ys
    have hb : beginsWith p (c :: (t ++ ys)) = false := by
      cases hbb : beginsWith p (c :: (t ++ ys)) with
      | false => rfl
      | true =>
        have ht := beginsWith_take (c :: t) p ys hbb
        simp only [List.length_cons] at ht
        exact absurd ht (by rw [h.1]; exact Bool.false_ne_true)
    rw [hb]
    simpa using ih ys h.2

theorem occurs_cons_append (p : List Char) (c : Char) (t ys : List Char)
    (h1 : beginsWith p (c :: t) = true) (h2 : noStart p t = true) :
    occurs p ((c :: t) ++ ys) = 1 + occurs p ys := by
  show (if beginsWith p (c :: (t ++ ys)) then 1 else 0) + occurs p (t ++ ys)
    = 1 + occurs p ys
  have hb : beginsWith p (c :: (t ++ ys)) = true :=
    beginsWith_append_of (c :: t) p ys h1
  rw [hb]
  simp only [if_true]
  rw [occurs_append_noStart p t ys h2]

theorem occurs_head_ne (a : Char) (p : List Char) :
    ∀ xs ys : List Char, (∀ x ∈ xs, x ≠ a) →
      occurs (a :: p) (xs ++ ys) = occurs (a :: p) ys := by
  intro xs
  induction xs with
  | nil => intro ys _; rfl
  | cons b t ih =>
    intro ys h
    show (if beginsWith (a :: p) (b :: (t ++ ys)) then 1 else 0)
        + occurs (a :: p) (t ++ ys) = occurs (a :: p) ys
    have hb : beginsWith (a :: p) (b :: (t ++ ys)) = false := by
      simp only [beginsWith, Bool.and_eq_false_iff]
      left
      simp [Ne.symm (h b (List.mem_cons_self b t))]
    rw [hb]
    simpa using ih ys (fun x hx => h x (List.mem_cons_of_mem b hx))

theorem occurs_clPat_boundary (b : List Char) :
    ∀ ys : List Char, (∀ c ∈ b, c ≠ ':') →
      (∀ c, ys.head? = some c → c = '\r') →
      occurs clPat (b ++ ys) = occurs clPat ys := by
  induction b with
  | nil => intro ys _ _; rfl
  | cons c t ih =>
    intro ys hb hy
    show (if beginsWith clPat (c :: (t ++ ys)) then 1 else 0)
        + occurs clPat (t ++ ys) = occurs clPat ys
    have hb0 : beginsWith clPat (c :: (t ++ ys)) = false := by
      cases hbb : beginsWith clPat (c :: (t ++ ys)) with
      | false => rfl
      | true =>
        exfalso
        rcases Nat.lt_or_ge (c :: t).length clPat.length with hlt | hge
        · have hd := beginsWith_drop (c :: t) clPat ys hbb (Nat.le_of_lt hlt)
          cases hdrop : clPat.drop (c :: t).length with
          | nil =>
            have hlen := congrArg List.length hdrop
            simp only [List.length_drop, List.length_nil] at hlen
            omega
          | cons a rest =>
            have ha : a ∈ clPat := by
              have hmem : a ∈ clPat.drop (c :: t).length := by
                rw [hdrop]; exact List.mem_cons_self a rest
              exact List.mem_of_mem_drop hmem
            rw [hdrop] at hd
            cases ys with
            | nil => simp [beginsWith] at hd
            | cons y ys' =>
              simp only [beginsWith, Bool.and_eq_true, decide_eq_true_eq] at hd
              have hy' : y = '\r' := hy y rfl
              have ha' : a = '\r' := hd.1.trans hy'
              rw [ha'] at ha
              exact absurd ha (by decide)
        · have ht := beginsWith_take (c :: t) clPat ys hbb
          rw [List.take_of_length_le hge] at ht
          have hcolon : (':' : Char) ∈ (c :: t) :=
            beginsWith_mem clPat (c :: t) ht ':' (by decide)
          exact hb ':' hcolon rfl
    rw [hb0]
    simpa using ih ys (fun x hx => hb x (List.mem_cons_of_mem c hx)) hy

theorem digitChar_ne_C (m : Nat) : Nat.digitChar m ≠ 'C' := by
  match m with
  | 0 => decide
  | 1 => decide
  | 2 => decide
  | 3 => decide
  | 4 => decide
  | 5 => decide
  | 6 => decide
  | 7 => decide
  | 8 => decide
  | 9 => decide
  | 10 => decide
  | 11 => decide
  | 12 => decide
  | 13 => decide
  | 14 => decide
  | 15 => decide
  | n + 16 =>
    unfold Nat.digitChar
    iterate 16 rw [if_neg (by omega)]
    decide

theorem toDigitsCore_ne_C (f : Nat) :
    ∀ (n : Nat) (acc : List Char), (∀ c ∈ acc, c ≠ 'C') →
      ∀ c ∈ Nat.toDigitsCore 10 f n acc, c ≠ 'C' := by
  induction f with
  | zero =>
    intro n acc hacc
    simpa [Nat.toDigitsCore] using hacc
  | succ f ih =>
    intro n acc hacc
    have hcons : ∀ c ∈ Nat.digitChar (n % 10) :: acc, c ≠ 'C' := by
      intro c hc
      rcases List.mem_cons.mp hc with h1 | h2
      · rw [h1]; exact digitChar_ne_C _
      · exact hacc c h2
    intro c hc
    simp only [Nat.toDigitsCore] at hc
    by_cases hz : n / 10 = 0
    · rw [if_pos hz] at hc
      exact hcons c hc
    · rw [if_neg hz] at hc
      exact ih (n / 10) _ hcons c hc

theorem repr_ne_C (n : Nat) : ∀ c ∈ (Nat.repr n).data, c ≠ 'C' := by
  intro c hc
  have hc' : c ∈ Nat.toDigitsCore 10 (n + 1) n [] := by
    simpa [Nat.repr, Nat.toDigits, List.asString] using hc
  exact toDigitsCore_ne_C (n + 1) n [] (by simp) c hc'

theorem occurs_clPat_head_ne (xs ys : List Char) (h : ∀ x ∈ xs, x ≠ 'C') :
    occurs clPat (xs ++ ys) = occurs clPat ys :=
  occurs_head_ne 'C' (("ontent-Length:").data) xs ys h

theorem occurs_clPat_clheader (ys : List Char) :
    occurs clPat (("Content-Length: ").data ++ ys) = 1 + occurs clPat ys :=
  occurs_cons_append clPat 'C' (("ontent-Length: ").data) ys (by decide) (by decide)

theorem occurs_clPat_none_template (b : List Char) (hb : ∀ c ∈ b, c ≠ ':') :
    occurs clPat
      (("POST /api/v0/add HTTP/1.1\r\nHost: localhost:5001\r\n").data
        ++ (("Content-Type: multipart/form-data; boundary=").data
        ++ (b ++ (("\r\n").data
        ++ (("--").data ++ (b ++ ("\r\n\r\n").data)))))) = 0 := by
  have hy1 : ∀ c, ((("\r\n").data
      ++ (("--").data ++ (b ++ ("\r\n\r\n").data))) : List Char).head? = some c →
      c = '\r' :=
    fun c hc => (Option.some.inj hc).symm
  have hy2 : ∀ c, (("\r\n\r\n").data : List Char).head? = some c → c = '\r' :=
    fun c hc => (Option.some.inj hc).symm
  rw [occurs_append_noStart clPat
        ("POST /api/v0/add HTTP/1.1\r\nHost: localhost:5001\r\n").data _ (by decide),
      occurs_append_noStart clPat
        ("Content-Type: multipart/form-data; boundary=").data _ (by decide),
      occurs_clPat_boundary b _ hb hy1,
      occurs_append_noStart clPat ("\r\n").data _ (by decide),
      occurs_append_noStart clPat ("--").data _ (by decide),
      occurs_clPat_boundary b _ hb hy2]
  decide

theorem occurs_clPat_some_template (b dgs : List Char)
    (hb : ∀ c ∈ b, c ≠ ':') (hd : ∀ c ∈ dgs, c ≠ 'C') :
    occurs clPat
      (("POST /api/v0/add HTTP/1.1\r\nHost: localhost:5001\r\n").data
        ++ (("Content-Length: ").data
        ++ (dgs ++ (("\r\n").data
        ++ (("Content-Type: multipart/form-data; boundary=").data
        ++ (b ++ (("\r\n").data
        ++ (("--").data ++ (b ++ ("\r\n\r\n").data))))))))) = 1 := by
  have hy1 : ∀ c, ((("\r\n").data
      ++ (("--").data ++ (b ++ ("\r\n\r\n").data))) : List Char).head? = some c →
      c = '\r' :=
    fun c hc => (Option.some.inj hc).symm
  have hy2 : ∀ c, (("\r\n\r\n").data : List Char).head? = some c → c = '\r' :=
    fun c hc => (Option.some.inj hc).symm
  rw [occurs_append_noStart clPat
        ("POST /api/v0/add HTTP/1.1\r\nHost: localhost:5001\r\n").data _ (by decide),
      occurs_clPat_clheader _,
      occurs_clPat_head_ne dgs _ hd,
      occurs_append_noStart clPat ("\r\n").data _ (by decide),
      occurs_append_noStart clPat
        ("Content-Type: multipart/form-data; boundary=").data _ (by decide),
      occurs_clPat_boundary b _ hb hy1,
      occurs_append_noStart clPat ("\r\n").data _ (by decide),
      occurs_append_noStart clPat ("--").data _ (by decide),
      occurs_clPat_boundary b _ hb hy2]
  decide

/-- C7: for every boundary token free of the colon character (every
generated boundary is dashes plus alphanumerics, so this covers all of
them), the preamble with no declared length contains no occurrence of
a Content-Length header, the preamble with declared length `n`
contains exactly one — its value being precisely `Nat.repr n` — and
the two preambles are otherwise identical: they differ only by the
inserted `Content-Length: n\r\n` line. -/
theorem multipart_begin_content_length (boundary : String) (n : Nat)
    (hb : ∀ c ∈ boundary.data, c ≠ ':') :
    multipart_begin none boundary
      = "POST /api/v0/add HTTP/1.1\r\nHost: localhost:5001\r\n"
        ++ ("Content-Type: multipart/form-data; boundary=" ++ boundary ++ "\r\n")
        ++ ("--" ++ boundary ++ "\r\n\r\n")
    ∧ multipart_begin (some n) boundary
      = "POST /api/v0/add HTTP/1.1\r\nHost: localhost:5001\r\n"
        ++ ("Content-Length: " ++ Nat.repr n ++ "\r\n")
        ++ ("Content-Type: multipart/form-data; boundary=" ++ boundary ++ "\r\n")
        ++ ("--" ++ boundary ++ "\r\n\r\n")
    ∧ occurs clPat (multipart_begin none boundary).data = 0
    ∧ occurs clPat (multipart_begin (some n) boundary).data = 1 := by
  refine ⟨?_, rfl, ?_, ?_⟩
  · show "POST /api/v0/add HTTP/1.1\r\nHost: localhost:5001\r\n" ++ ""
        ++ ("Content-Type: multipart/form-data; boundary=" ++ boundary ++ "\r\n")
        ++ ("--" ++ boundary ++ "\r\n\r\n") = _
    rw [string_append_empty]
  · have hdata0 : (multipart_begin none boundary).data
        = ("POST /api/v0/add HTTP/1.1\r\nHost: localhost:5001\r\n").data
          ++ (("Content-Type: multipart/form-data; boundary=").data
          ++ (boundary.data ++ (("\r\n").data
          ++ (("--").data ++ (boundary.data ++ ("\r\n\r\n").data))))) := by
      simp only [multipart_begin, String.data_append, data_empty,
        List.nil_append, List.append_assoc]
    rw [hdata0]
    exact occurs_clPat_none_template boundary.data hb
  · have hdata1 : (multipart_begin (some n) boundary).data
        = ("POST /api/v0/add HTTP/1.1\r\nHost: localhost:5001\r\n").data
          ++ (("Content-Length: ").data
          ++ ((Nat.repr n).data ++ (("\r\n").data
          ++ (("Content-Type: multipart/form-data; boundary=").data
          ++ (boundary.data ++ (("\r\n").data
          ++ (("--").data ++ (boundary.data ++ ("\r\n\r\n").data)))))))) := by
      simp only [multipart_begin, String.data_append, List.append_assoc]
    rw [hdata1]
    exact occurs_clPat_some_template boundary.data (Nat.repr n).data hb (repr_ne_C n)

/-- Witness for C7 at a generated-shape boundary and declared length 42. -/
theorem multipart_begin_content_length_witness :
    (∀ c ∈ ("------------------------a1B2c3D4e5F6g7H8i9" : String).data, c ≠ ':')
    ∧ (multipart_begin none "------------------------a1B2c3D4e5F6g7H8i9"
      = "POST /api/v0/add HTTP/1.1\r\nHost: localhost:5001\r\n"
        ++ ("Content-Type: multipart/form-data; boundary="
            ++ "------------------------a1B2c3D4e5F6g7H8i9" ++ "\r\n")
        ++ ("--" ++ "------------------------a1B2c3D4e5F6g7H8i9" ++ "\r\n\r\n")
    ∧ multipart_begin (some 42) "------------------------a1B2c3D4e5F6g7H8i9"
      = "POST /api/v0/add HTTP/1.1\r\nHost: localhost:5001\r\n"
        ++ ("Content-Length: " ++ Nat.repr 42 ++ "\r\n")
        ++ ("Content-Type: multipart/form-data; boundary="
            ++ "------------------------a1B2c3D4e5F6g7H8i9" ++ "\r\n")
        ++ ("--" ++ "------------------------a1B2c3D4e5F6g7H8i9" ++ "\r\n\r\n")
    ∧ occurs clPat
        (multipart_begin none "------------------------a1B2c3D4e5F6g7H8i9").data = 0
    ∧ occurs clPat
        (multipart_begin (some 42) "------------------------a1B2c3D4e5F6g7H8i9").data
      = 1) :=
  ⟨by decide,
   multipart_begin_content_length "------------------------a1B2c3D4e5F6g7H8i9" 42
     (by decide)⟩
